import Mathlib

/-!
A shallow embedding of the PyScheme evaluator core (scheme.py) in Lean 4.

Modelling conventions:
- Scheme expressions and runtime values share one type `SValue`, as in the
  source where expressions are Pair trees, symbols are Python strings, and
  procedure objects can appear in expression position (scheme_eval receives
  ThunkProcedure values directly).
- Mutable object state (Frame bindings and each LambdaProcedure's
  recursive_call flag) is modelled by explicit stores indexed by allocation
  order: `St.frames` and `St.procs`.  A `lambdaP i` value is a reference to
  the i-th LambdaProcedure object, so aliased closures share one mutable flag,
  exactly as Python object references do.
- Python exceptions are modelled by the `Outcome.err` constructor, which
  carries the state at the moment of raising (mutations performed before the
  raise persist, as they do for Python objects).
- Host-level recursion is modelled with a fuel parameter; `Outcome.timeout`
  corresponds to the host recursion limit and is not a SchemeError.
- SchemeError messages are modelled by the structured type `SErr`, one
  constructor per format string in the source.  Uncaught host exceptions
  (AttributeError / TypeError / IndexError on unreachable-by-valid-input
  paths) are modelled as `SErr.hostError`.
- The builtin procedure library (scheme_builtins.py) and the reader are
  external collaborators and are not part of the core being verified; the
  procedure taxonomy modelled here is LambdaProcedure, MuProcedure,
  MacroProcedure and ThunkProcedure.
-/

/-- Scheme expressions and values: atoms, symbols (Python str), pairs, the
empty-list sentinel nil, Python None, and the procedure taxonomy.  `lambdaP`
is a reference into the LambdaProcedure store, `formV` is a special-form
class returned by evaluating a reserved symbol (scheme.py line 44-45). -/
inductive SValue where
  | num (n : Int)
  | boolV (b : Bool)
  | sym (s : String)
  | nilV
  | noneV
  | pair (a d : SValue)
  | lambdaP (pid : Nat)
  | muP (formals body : SValue)
  | macP (params body : SValue)
  | thunkP (target : SValue) (args : List SValue)
  | formV (tag : Nat)

/-- Structured model of the SchemeError messages raised by scheme.py. -/
inductive SErr where
  | unbound (name : String)
  | arity (expected got : Nat)
  | badlyFormed
  | tooFew
  | tooMany
  | nonSymbol
  | dupSymbol
  | invalidOperator
  | hostError
deriving DecidableEq

/-- An environment frame (class Frame): a symbol-to-value mapping plus an
optional parent frame reference (scheme.py lines 63-94). -/
structure Frame where
  parent : Option Nat
  bindings : List (String × SValue)

/-- The mutable state of a LambdaProcedure object (scheme.py lines 137-147):
formal parameter list, body (a Scheme list of expressions), captured
defining frame, and the mutable recursive_call marker. -/
structure LambdaProcedure where
  formals : SValue
  body : SValue
  env : Nat
  recursive_call : Bool

/-- The heap of mutable objects threaded through evaluation: all Frame
objects and all LambdaProcedure objects, indexed by allocation order. -/
structure St where
  frames : List Frame
  procs : List LambdaProcedure

/-- Result of an evaluation step: a value with the resulting state, a raised
SchemeError with the state at the raise, or host-stack exhaustion. -/
inductive Outcome where
  | ok (v : SValue) (s : St)
  | err (e : SErr) (s : St)
  | timeout

/-- Result of evaluating an operand list. -/
inductive OutcomeL where
  | ok (vs : List SValue) (s : St)
  | err (e : SErr) (s : St)
  | timeout

/-- Scheme truthiness (scheme_boolean, scheme.py lines 189-193): everything
except the literal false value is true. -/
def isTruthy : SValue → Bool
  | .boolV false => false
  | _ => true

/-- Test for the empty-list sentinel. -/
def isNilB : SValue → Bool
  | .nilV => true
  | _ => false

/-- Test for a ThunkProcedure value. -/
def isThunkV : SValue → Bool
  | .thunkP _ _ => true
  | _ => false

/-- Convert a proper Scheme list to a Lean list (iteration over a Pair
chain); `none` when the chain is not nil-terminated (scheme_listp false). -/
def schemeToList : SValue → Option (List SValue)
  | .nilV => some []
  | .pair a d => (schemeToList d).map (a :: ·)
  | _ => none

/-- Python len() of a Scheme list; `none` on an improper list. -/
def schemeLen (v : SValue) : Option Nat :=
  (schemeToList v).map List.length

/-- validate_form (scheme.py lines 444-457): check a proper list whose
length is at least `mn` and, when given, at most `mx`. -/
def validate_form (e : SValue) (mn : Nat) (mx : Option Nat) : Except SErr Unit :=
  match schemeToList e with
  | none => .error .badlyFormed
  | some l =>
    if l.length < mn then .error .tooFew
    else
      match mx with
      | some m => if l.length > m then .error .tooMany else .ok ()
      | none => .ok ()

/-- Helper for validate_formals, carrying the set of symbols seen so far. -/
def validateFormalsAux : SValue → List String → Except SErr Unit
  | .pair f r, seen =>
    match f with
    | .sym x => if seen.contains x then .error .dupSymbol else validateFormalsAux r (x :: seen)
    | _ => .error .nonSymbol
  | .nilV, _ => .ok ()
  | .sym x, seen => if seen.contains x then .error .dupSymbol else .ok ()
  | _, _ => .error .nonSymbol

/-- validate_formals (scheme.py lines 459-480): a parameter list must be a
Scheme list of distinct symbols (a symbol tail is accepted for
DOTS_ARE_CONS compatibility). -/
def validate_formals (formals : SValue) : Except SErr Unit :=
  validateFormalsAux formals []

/-- Assoc-list update with dict semantics: overwrite the existing key or
append a new entry. -/
def assocSet : List (String × SValue) → String → SValue → List (String × SValue)
  | [], k, v => [(k, v)]
  | (k', v') :: t, k, v => if k' = k then (k, v) :: t else (k', v') :: assocSet t k v

/-- Assoc-list (dict) lookup. -/
def assocFind : List (String × SValue) → String → Option SValue
  | [], _ => none
  | (k, v) :: t, name => if k = name then some v else assocFind t name

/-- Frame.define (scheme.py lines 80-83): insert or overwrite a binding in
the frame `fid`. -/
def frameDefine (s : St) (fid : Nat) (name : String) (v : SValue) : St :=
  match s.frames[fid]? with
  | some fr => { s with frames := s.frames.set fid { fr with bindings := assocSet fr.bindings name v } }
  | none => s

/-- Mutate the recursive_call marker of the LambdaProcedure object `pid`. -/
def setFlag (s : St) (pid : Nat) (b : Bool) : St :=
  match s.procs[pid]? with
  | some p => { s with procs := s.procs.set pid { p with recursive_call := b } }
  | none => s

/-- Read the recursive_call marker of the LambdaProcedure object `pid`. -/
def flagOf (s : St) (pid : Nat) : Bool :=
  match s.procs[pid]? with
  | some p => p.recursive_call
  | none => false

/-- Frame(parent) (scheme.py lines 66-72): allocate a fresh empty frame
whose parent is `parent`; its index is the previous length of the store. -/
def addFrame (parent : Nat) (s : St) : St :=
  { s with frames := s.frames ++ [⟨some parent, []⟩] }

/-- LambdaProcedure(...) object allocation. -/
def addProc (p : LambdaProcedure) (s : St) : St :=
  { s with procs := s.procs ++ [p] }

/-- Result of Frame.lookup: a value, an UnboundNameError, or fuel
exhaustion (unreachable on well-formed frame chains). -/
inductive LookRes where
  | found (v : SValue)
  | unbound
  | stuck

/-- Frame.lookup (scheme.py lines 86-93): return the value bound in this
frame, else recurse into the parent, else raise UnboundNameError. -/
def Frame_lookup : Nat → St → Nat → String → LookRes
  | 0, _, _, _ => .stuck
  | fuel+1, s, fid, name =>
    match s.frames[fid]? with
    | none => .stuck
    | some fr =>
      match assocFind fr.bindings name with
      | some v => .found v
      | none =>
        match fr.parent with
        | some p => Frame_lookup fuel s p name
        | none => .unbound

/-- The chain of frame indices from `fid` to the parentless root. -/
def frameChain : Nat → St → Nat → Option (List Nat)
  | 0, _, _ => none
  | fuel+1, s, fid =>
    match s.frames[fid]? with
    | none => none
    | some fr =>
      match fr.parent with
      | none => some [fid]
      | some p => (frameChain fuel s p).map (fid :: ·)

/-- The binding of a single frame for `name`. -/
def frameBinding (s : St) (g : Nat) (name : String) : Option SValue :=
  s.frames[g]?.bind (fun fr => assocFind fr.bindings name)

/-- Specification-side description of lookup, following the spec words: the
value bound in the innermost frame of the chain that binds the name. -/
def innermostBinding (s : St) : List Nat → String → Option SValue
  | [], _ => none
  | g :: t, name =>
    match frameBinding s g name with
    | some v => some v
    | none => innermostBinding s t name

/-- The special_forms table (scheme.py lines 424-436), as a mapping from
reserved symbols to form tags. -/
def specialFormTag : String → Option Nat
  | "define" => some 0
  | "if" => some 1
  | "cond" => some 2
  | "and" => some 3
  | "or" => some 4
  | "let" => some 5
  | "begin" => some 6
  | "lambda" => some 7
  | "mu" => some 8
  | "quote" => some 9
  | "define-macro" => some 10
  | _ => none

/-- CondForm.__init__ clause transformation (scheme.py lines 251-259), on
the pure tree view: if the last clause's first element is the symbol else,
it is overwritten with the boolean true.  A non-Pair last clause raises a
host AttributeError.  (The destructive, aliasing-visible character of this
assignment is modelled separately on the heap view below.) -/
def condTransform (clauses : List SValue) : Except SErr (List SValue) :=
  match clauses.getLast? with
  | none => .error .hostError
  | some lc =>
    match lc with
    | .pair (.sym s) r =>
      if s = "else" then .ok (clauses.dropLast ++ [.pair (.boolV true) r]) else .ok clauses
    | .pair _ _ => .ok clauses
    | _ => .error .hostError

/-- Positional formal binding: the zip of LambdaProcedure.apply line 154,
walking the formal chain and the argument list together. -/
def bindFormals : SValue → List SValue → Nat → St → St
  | .pair (.sym x) r, a :: as', fid, s => bindFormals r as' fid (frameDefine s fid x a)
  | .pair _ r, _ :: as', fid, s => bindFormals r as' fid s
  | _, _, _, s => s


set_option maxHeartbeats 2000000 in
mutual

/-- scheme_eval (scheme.py lines 16-50).  A Pair evaluates its operator
first; a MacroProcedure operator receives the raw operand list; other
procedures get evaluated operands, with tail-call thunking decided in
applyCall; a special-form marker dispatches to formEval; a string is a
reserved-form marker or an environment lookup; a ThunkProcedure outside
tail position is applied once; everything else self-evaluates. -/
def scheme_eval (fuel : Nat) (expr : SValue) (env : Nat) (tailPos : Bool) (s : St) : Outcome :=
  match fuel, expr, env, tailPos, s with
  | 0, _, _, _, _ => .timeout
  | fuel+1, expr, env, tailPos, s =>
    match expr with
    | .pair op rands =>
      match scheme_eval fuel op env false s with
      | .ok opv s' =>
        match opv with
        | .macP params body =>
          match schemeToList rands with
          | some l => scheme_apply fuel (.macP params body) l env s'
          | none => .err .hostError s'
        | .lambdaP pid => applyCall fuel (.lambdaP pid) rands env tailPos s'
        | .muP fs bd => applyCall fuel (.muP fs bd) rands env tailPos s'
        | .thunkP t ta => applyCall fuel (.thunkP t ta) rands env tailPos s'
        | .formV tag => formEval fuel tag rands env tailPos s'
        | _ => .err .invalidOperator s'
      | r => r
    | .sym name =>
      match specialFormTag name with
      | some tag => .ok (.formV tag) s
      | none =>
        match Frame_lookup fuel s env name with
        | .found v => .ok v s
        | .unbound => .err (.unbound name) s
        | .stuck => .timeout
    | .thunkP target targs =>
      if tailPos then .ok expr s else scheme_apply fuel target targs env s
    | _ => .ok expr s
termination_by structural fuel

/-- The procedure-call part of scheme_eval's Pair case (lines 31-38):
evaluate the operands left to right, then either produce a ThunkProcedure
(tail position and the operator is a LambdaProcedure whose recursive_call
marker is set), apply directly (other tail calls), or route through the
trampoline-resolving complete_apply (non-tail position). -/
def applyCall (fuel : Nat) (opv rands : SValue) (env : Nat) (tailPos : Bool) (s : St) : Outcome :=
  match fuel, opv, rands, env, tailPos, s with
  | 0, _, _, _, _, _ => .timeout
  | fuel+1, opv, rands, env, tailPos, s =>
    match evalOperands fuel rands env s with
    | .ok args s' =>
      if tailPos then
        match opv with
        | .lambdaP pid =>
          if flagOf s' pid then .ok (.thunkP (.lambdaP pid) args) s'
          else scheme_apply fuel (.lambdaP pid) args env s'
        | _ => scheme_apply fuel opv args env s'
      else complete_apply fuel opv args env s'
    | .err e t => .err e t
    | .timeout => .timeout
termination_by structural fuel

/-- The operand list comprehension of scheme_eval line 31: evaluate each
operand expression left to right in `env`, outside tail position. -/
def evalOperands (fuel : Nat) (rands : SValue) (env : Nat) (s : St) : OutcomeL :=
  match fuel, rands, env, s with
  | 0, _, _, _ => .timeout
  | fuel+1, rands, env, s =>
    match rands with
    | .nilV => .ok [] s
    | .pair e r =>
      match scheme_eval fuel e env false s with
      | .ok v s' =>
        match evalOperands fuel r env s' with
        | .ok vs s'' => .ok (v :: vs) s''
        | o => o
      | .err e' t => .err e' t
      | .timeout => .timeout
    | _ => .err .hostError s
termination_by structural fuel

/-- scheme_apply (scheme.py lines 52-57): dispatch on procedure.apply.  A
ThunkProcedure's apply (lines 555-556) ignores the passed arguments and
re-invokes scheme_apply on its stored target and stored arguments. -/
def scheme_apply (fuel : Nat) (procV : SValue) (args : List SValue) (env : Nat) (s : St) : Outcome :=
  match fuel, procV, args, env, s with
  | 0, _, _, _, _ => .timeout
  | fuel+1, procV, args, env, s =>
    match procV with
    | .lambdaP pid => lambdaApply fuel pid args env s
    | .muP formals body => muApply fuel formals body args env s
    | .macP params body => macApply fuel params body args env s
    | .thunkP target targs => scheme_apply fuel target targs env s
    | _ => .err .hostError s
termination_by structural fuel

/-- LambdaProcedure.apply (scheme.py lines 150-162): check the argument
count against the formal count, allocate a new frame parented at the
captured defining frame, bind the formals positionally, set the
recursive_call marker, evaluate the body (last expression in tail
position), then clear the marker on the return path.  Note that a raised
error propagates without clearing the marker (there is no try/finally). -/
def lambdaApply (fuel : Nat) (pid : Nat) (args : List SValue) (env : Nat) (s : St) : Outcome :=
  match fuel, pid, args, env, s with
  | 0, _, _, _, _ => .timeout
  | fuel+1, pid, args, _, s =>
    match s.procs[pid]? with
    | none => .err .hostError s
    | some p =>
      match schemeLen p.formals with
      | none => .err .hostError s
      | some n =>
        if args.length ≠ n then .err (.arity n args.length) s
        else
          let fid := s.frames.length
          let s1 := addFrame p.env s
          let s2 := bindFormals p.formals args fid s1
          let s3 := setFlag s2 pid true
          match schemeToList p.body with
          | none => .err .hostError s3
          | some bl =>
            match evalSeq fuel bl fid true s3 with
            | .ok v s4 => .ok v (setFlag s4 pid false)
            | r => r
termination_by structural fuel

/-- MuProcedure.apply (scheme.py lines 511-516): build a LambdaProcedure
from the mu's formals and body whose captured frame is the frame the call
occurs in, and apply it — dynamic scope. -/
def muApply (fuel : Nat) (formals body : SValue) (args : List SValue) (env : Nat) (s : St) : Outcome :=
  match fuel, formals, body, args, env, s with
  | 0, _, _, _, _, _ => .timeout
  | fuel+1, formals, body, args, env, s =>
    lambdaApply fuel s.procs.length args env (addProc ⟨formals, body, env, false⟩ s)
termination_by structural fuel

/-- MacroProcedure.apply (scheme.py lines 574-575): build a transient
LambdaProcedure over the caller's environment, apply it to the (raw)
arguments to obtain the expansion, then evaluate the expansion again in the
caller's environment. -/
def macApply (fuel : Nat) (params body : SValue) (args : List SValue) (env : Nat) (s : St) : Outcome :=
  match fuel, params, body, args, env, s with
  | 0, _, _, _, _, _ => .timeout
  | fuel+1, params, body, args, env, s =>
    match lambdaApply fuel s.procs.length args env (addProc ⟨params, body, env, false⟩ s) with
    | .ok expansion s2 => scheme_eval fuel expansion env false s2
    | r => r
termination_by structural fuel

/-- complete_apply (scheme.py lines 533-542): apply the procedure, then
resolve any resulting thunk chain. -/
def complete_apply (fuel : Nat) (procV : SValue) (args : List SValue) (env : Nat) (s : St) : Outcome :=
  match fuel, procV, args, env, s with
  | 0, _, _, _, _ => .timeout
  | fuel+1, procV, args, env, s =>
    match scheme_apply fuel procV args env s with
    | .ok v s' => resolveLoop fuel v args env s'
    | r => r
termination_by structural fuel

/-- The while loop of complete_apply: while the value is a ThunkProcedure,
apply it (which applies its stored target to its stored arguments). -/
def resolveLoop (fuel : Nat) (v : SValue) (args : List SValue) (env : Nat) (s : St) : Outcome :=
  match fuel, v, args, env, s with
  | 0, _, _, _, _ => .timeout
  | fuel+1, v, args, env, s =>
    match v with
    | .thunkP target targs =>
      match scheme_apply fuel target targs env s with
      | .ok v' s' => resolveLoop fuel v' args env s'
      | r => r
    | _ => .ok v s
termination_by structural fuel

/-- Body-sequence evaluation shared by LambdaProcedure.apply and the
begin/let/cond handlers: evaluate all but the last expression for effect
only, and the last with the given tail flag.  An empty sequence is the
Python IndexError of body[-1]. -/
def evalSeq (fuel : Nat) (exprs : List SValue) (env : Nat) (lastTail : Bool) (s : St) : Outcome :=
  match fuel, exprs, env, lastTail, s with
  | 0, _, _, _, _ => .timeout
  | _+1, [], _, _, s => .err .hostError s
  | fuel+1, [e], env, lastTail, s => scheme_eval fuel e env lastTail s
  | fuel+1, e :: rest, env, lastTail, s =>
    match scheme_eval fuel e env false s with
    | .ok _ s' => evalSeq fuel rest env lastTail s'
    | r => r
termination_by structural fuel

/-- Special-form dispatch (scheme.py line 40): construct the form node from
the unevaluated operand list — running its construction-time validation —
then evaluate it.  One arm per entry of the special_forms table. -/
def formEval (fuel : Nat) (tag : Nat) (tail : SValue) (env : Nat) (tailPos : Bool) (s : St) : Outcome :=
  match fuel, tag, tail, env, tailPos, s with
  | 0, _, _, _, _, _ => .timeout
  | fuel+1, tag, tail, env, tailPos, s =>
    match tag with
    | 0 => -- DefineForm (lines 202-223)
      match validate_form tail 2 none with
      | .error e => .err e s
      | .ok _ =>
        match tail with
        | .pair n1 rest1 =>
          match rest1 with
          | .pair e1 _ =>
            let name := match n1 with | .pair fn _ => fn | _ => n1
            let ex := match n1 with
              | .pair _ fr => .pair (.sym "lambda") (.pair fr rest1)
              | _ => e1
            match validate_formals (.pair name .nilV) with
            | .error e => .err e s
            | .ok _ =>
              match name with
              | .sym n =>
                match scheme_eval fuel ex env false s with
                | .ok v s' => .ok (.sym n) (frameDefine s' env n v)
                | r => r
              | _ => .err .hostError s
          | _ => .err .hostError s
        | _ => .err .hostError s
    | 1 => -- IfForm (lines 225-242)
      match validate_form tail 2 (some 3) with
      | .error e => .err e s
      | .ok _ =>
        match tail with
        | .pair pred (.pair conseq alt) =>
          match scheme_eval fuel pred env false s with
          | .ok v s' =>
            if isTruthy v then scheme_eval fuel conseq env tailPos s'
            else
              match alt with
              | .pair a _ => scheme_eval fuel a env tailPos s'
              | _ => .ok .noneV s'
          | r => r
        | _ => .err .hostError s
    | 2 => -- CondForm (lines 244-275)
      match validate_form tail 1 none with
      | .error e => .err e s
      | .ok _ =>
        match schemeToList tail with
        | none => .err .hostError s
        | some cls =>
          match condTransform cls with
          | .error e => .err e s
          | .ok cls' => condLoop fuel cls' env tailPos s
    | 3 => -- AndForm (lines 277-296)
      match tail with
      | .nilV => .ok (.boolV true) s
      | _ => andLoop fuel tail env tailPos s
    | 4 => -- OrForm (lines 298-314)
      orLoop fuel tail env tailPos s
    | 5 => -- LetForm (lines 316-340)
      match validate_form tail 2 none with
      | .error e => .err e s
      | .ok _ =>
        match tail with
        | .pair binding body =>
          let fid := s.frames.length
          match letBindLoop fuel binding fid env (addFrame env s) with
          | .ok _ s2 =>
            match schemeToList body with
            | some bl => evalSeq fuel bl fid tailPos s2
            | none => .err .hostError s2
          | r => r
        | _ => .err .hostError s
    | 6 => -- BeginForm (lines 342-355)
      match validate_form tail 1 none with
      | .error e => .err e s
      | .ok _ =>
        match schemeToList tail with
        | some l => evalSeq fuel l env tailPos s
        | none => .err .hostError s
    | 7 => -- LambdaForm (lines 357-371)
      match validate_form tail 2 none with
      | .error e => .err e s
      | .ok _ =>
        match tail with
        | .pair formals body =>
          match validate_formals formals with
          | .error e => .err e s
          | .ok _ => .ok (.lambdaP s.procs.length) (addProc ⟨formals, body, env, false⟩ s)
        | _ => .err .hostError s
    | 8 => -- MuForm (lines 373-388)
      match validate_form tail 2 none with
      | .error e => .err e s
      | .ok _ =>
        match tail with
        | .pair formals body =>
          match validate_formals formals with
          | .error e => .err e s
          | .ok _ => .ok (.muP formals body) s
        | _ => .err .hostError s
    | 9 => -- QuoteForm (lines 390-400)
      match validate_form tail 1 (some 1) with
      | .error e => .err e s
      | .ok _ =>
        match tail with
        | .pair e _ => .ok e s
        | _ => .err .hostError s
    | 10 => -- DefineMacroForm (lines 402-422)
      match validate_form tail 2 none with
      | .error e => .err e s
      | .ok _ =>
        match tail with
        | .pair sig body =>
          match validate_form sig 1 none with
          | .error e => .err e s
          | .ok _ =>
            match sig with
            | .pair nm params =>
              match validate_formals (.pair nm .nilV) with
              | .error e => .err e s
              | .ok _ =>
                match validate_formals params with
                | .error e => .err e s
                | .ok _ =>
                  match nm with
                  | .sym n => .ok (.sym n) (frameDefine s env n (.macP params body))
                  | _ => .err .hostError s
            | _ => .err .hostError s
        | _ => .err .hostError s
    | _ => .err .hostError s
termination_by structural fuel

/-- The while loop of AndForm.eval: evaluate the tests left to right (the
last one with the propagated tail flag); return the first falsy value, or
the last value when every test is truthy. -/
def andLoop (fuel : Nat) (tests : SValue) (env : Nat) (tailPos : Bool) (s : St) : Outcome :=
  match fuel, tests, env, tailPos, s with
  | 0, _, _, _, _ => .timeout
  | fuel+1, tests, env, tailPos, s =>
    match tests with
    | .pair hd tl =>
      match scheme_eval fuel hd env (tailPos && isNilB tl) s with
      | .ok v s' =>
        if isTruthy v then
          match tl with
          | .nilV => .ok v s'
          | _ => andLoop fuel tl env tailPos s'
        else .ok v s'
      | r => r
    | _ => .err .hostError s
termination_by structural fuel

/-- The while loop of OrForm.eval: evaluate the tests left to right (the
last one with the propagated tail flag); return the first truthy value, or
false when no test is truthy. -/
def orLoop (fuel : Nat) (tests : SValue) (env : Nat) (tailPos : Bool) (s : St) : Outcome :=
  match fuel, tests, env, tailPos, s with
  | 0, _, _, _, _ => .timeout
  | fuel+1, tests, env, tailPos, s =>
    match tests with
    | .nilV => .ok (.boolV false) s
    | .pair hd tl =>
      match scheme_eval fuel hd env (tailPos && isNilB tl) s with
      | .ok v s' =>
        if isTruthy v then .ok v s'
        else
          match tl with
          | .nilV => .ok (.boolV false) s'
          | _ => orLoop fuel tl env tailPos s'
      | r => r
    | _ => .err .hostError s
termination_by structural fuel

/-- The clause loop of CondForm.eval (lines 261-275): evaluate each test in
order; on the first truthy test, evaluate its body expressions (last in
tail position), or return the test value itself if the clause has no body;
with no matching clause the value is Python None. -/
def condLoop (fuel : Nat) (cls : List SValue) (env : Nat) (tailPos : Bool) (s : St) : Outcome :=
  match fuel, cls, env, tailPos, s with
  | 0, _, _, _, _ => .timeout
  | _+1, [], _, _, s => .ok .noneV s
  | fuel+1, cl :: rest, env, tailPos, s =>
    match cl with
    | .pair test exprs =>
      match scheme_eval fuel test env false s with
      | .ok v s' =>
        if isTruthy v then
          match exprs with
          | .nilV => .ok v s'
          | _ =>
            match schemeToList exprs with
            | some l => evalSeq fuel l env tailPos s'
            | none => .err .hostError s'
        else condLoop fuel rest env tailPos s'
      | r => r
    | _ => .err .hostError s
termination_by structural fuel

/-- The binding loop of LetForm.eval (lines 333-337): for each binding in
order, validate its two-element shape and that its name is a symbol (each
binding is checked against a fresh empty symbol set), evaluate its
expression in the outer environment `env`, and install the result in the
new frame `fid`. -/
def letBindLoop (fuel : Nat) (bindings : SValue) (fid : Nat) (env : Nat) (s : St) : Outcome :=
  match fuel, bindings, fid, env, s with
  | 0, _, _, _, _ => .timeout
  | fuel+1, bindings, fid, env, s =>
    match bindings with
    | .nilV => .ok .noneV s
    | .pair b rest =>
      match validate_form b 2 (some 2) with
      | .error e => .err e s
      | .ok _ =>
        match b with
        | .pair bn (.pair be _) =>
          match validate_formals (.pair bn .nilV) with
          | .error e => .err e s
          | .ok _ =>
            match scheme_eval fuel be env false s with
            | .ok v s' =>
              match bn with
              | .sym n => letBindLoop fuel rest fid env (frameDefine s' fid n v)
              | _ => .err .hostError s'
            | r => r
        | _ => .err .hostError s
    | _ => .err .hostError s
termination_by structural fuel

end

/-- Projection: the value of a non-error outcome. -/
def outcomeValue : Outcome → Option SValue
  | .ok v _ => some v
  | _ => none

/-- Projection: the raised SchemeError of an error outcome. -/
def outcomeErr : Outcome → Option SErr
  | .err e _ => some e
  | _ => none

/-- Projection: the final state of a terminated outcome. -/
def outcomeState : Outcome → Option St
  | .ok _ s => some s
  | .err _ s => some s
  | .timeout => none

/-!
Heap view of the expression tree, for the destructive-mutation behavior of
CondForm.__init__.  Modelled from the spec: Pair is a two-slot mutable cell
and multiple structures may reference the same pair subgraph (aliasing, not
copying, is the default) — the Pair class itself lives in the external
reader collaborator, so its mutable-cell semantics is taken from the spec's
data model; the transformation applied to it below is CondForm.__init__
from scheme.py lines 251-259.
-/

/-- A value slot of a heap pair cell: an atom, nil, or a reference to
another pair cell. -/
inductive HVal where
  | symH (s : String)
  | boolH (b : Bool)
  | numH (n : Int)
  | nilH
  | ref (a : Nat)
deriving DecidableEq

/-- A mutable two-slot pair cell. -/
structure PCell where
  first : HVal
  rest : HVal
deriving DecidableEq

/-- The pair-cell heap, indexed by cell address. -/
abbrev Heap := List PCell

/-- Python len() of a heap-represented Scheme list (scheme_listp check of
validate_form): `none` when the rest chain is not nil-terminated. -/
def properLenH : Nat → Heap → HVal → Option Nat
  | 0, _, _ => none
  | fuel+1, h, v =>
    match v with
    | .nilH => some 0
    | .ref a =>
      match h[a]? with
      | some c => (properLenH fuel h c.rest).map (· + 1)
      | none => none
    | _ => none

/-- The address of the last spine cell of a heap-represented proper list;
tail[-1] is the `first` slot of this cell. -/
def spineLast : Nat → Heap → Nat → Option Nat
  | 0, _, _ => none
  | fuel+1, h, a =>
    match h[a]? with
    | none => none
    | some c =>
      match c.rest with
      | .nilH => some a
      | .ref b => spineLast fuel h b
      | _ => none

/-- CondForm.__init__ (scheme.py lines 251-259) on the heap view: run
validate_form(tail, 1), locate the last clause tail[-1], and if its first
element is the symbol else, assign the boolean true into that clause
cell's first slot — an in-place store into the shared expression graph.
Returns the updated heap and self.clauses, which is the same tail
reference.  The evaluator reconstructs the form node on every evaluation of
the cond expression (scheme.py line 40), so this runs before each
evaluation of the clauses. -/
def condInitH (fuel : Nat) (h : Heap) (tailv : HVal) : Except SErr (Heap × HVal) :=
  match properLenH fuel h tailv with
  | none => .error .badlyFormed
  | some n =>
    if n < 1 then .error .tooFew
    else
      match tailv with
      | .ref a0 =>
        match spineLast fuel h a0 with
        | none => .error .hostError
        | some la =>
          match h[la]?.map PCell.first with
          | some (.ref ca) =>
            match h[ca]? with
            | some cc =>
              if cc.first = .symH "else" then .ok (h.set ca { cc with first := .boolH true }, tailv)
              else .ok (h, tailv)
            | none => .error .hostError
          | some _ => .error .hostError
          | none => .error .hostError
      | _ => .error .hostError

/-- Read a cell slot through a reference: the observation an alias of the
pair subgraph makes. -/
def readFirst (h : Heap) (v : HVal) : Option HVal :=
  match v with
  | .ref a => (h[a]?).map PCell.first
  | _ => none


/-!  Step lemmas used to settle claims: one-step unfoldings of the fueled
evaluator, provable definitionally. -/

/-- The operator dispatch of scheme_eval's Pair case, factored out for step
reasoning. -/
def evalWithOperator (fuel : Nat) (opv rands : SValue) (env : Nat) (tailPos : Bool) (s' : St) : Outcome :=
  match opv with
  | .macP params body =>
    match schemeToList rands with
    | some l => scheme_apply fuel (.macP params body) l env s'
    | none => .err .hostError s'
  | .lambdaP pid => applyCall fuel (.lambdaP pid) rands env tailPos s'
  | .muP fs bd => applyCall fuel (.muP fs bd) rands env tailPos s'
  | .thunkP t ta => applyCall fuel (.thunkP t ta) rands env tailPos s'
  | .formV tag => formEval fuel tag rands env tailPos s'
  | _ => .err .invalidOperator s'

/-!  Concrete program fixtures used by the claim theorems, written directly
in the expression/value representation (the reader is external). -/

/-- The empty global state: one root frame, no bindings, no procedures. -/
def emptySt : St := ⟨[⟨none, []⟩], []⟩

/-- A closure object for (lambda () zz) with zz unbound anywhere, entered
with the recursive_call marker false. -/
def c1St : St := ⟨[⟨none, []⟩], [⟨.nilV, .pair (.sym "zz") .nilV, 0, false⟩]⟩

/-- A closure object for (lambda () 5), for the ordinary-return contrast. -/
def c1OkSt : St := ⟨[⟨none, []⟩], [⟨.nilV, .pair (.num 5) .nilV, 0, false⟩]⟩

/-- A self-recursive closure (lambda () (f)) bound to f, and a pending
ThunkProcedure over it. -/
def c2St : St := ⟨[⟨none, [("f", .lambdaP 0)]⟩], [⟨.nilV, .pair (.pair (.sym "f") .nilV) .nilV, 0, false⟩]⟩

/-- (let ((x 1) (x 2)) x) -/
def letDupExpr : SValue :=
  .pair (.sym "let")
    (.pair (.pair (.pair (.sym "x") (.pair (.num 1) .nilV))
                  (.pair (.pair (.sym "x") (.pair (.num 2) .nilV)) .nilV))
      (.pair (.sym "x") .nilV))

/-- (let ((x 1) (2 3)) x): second binding name is not a symbol. -/
def letNonsymExpr : SValue :=
  .pair (.sym "let")
    (.pair (.pair (.pair (.sym "x") (.pair (.num 1) .nilV))
                  (.pair (.pair (.num 2) (.pair (.num 3) .nilV)) .nilV))
      (.pair (.sym "x") .nilV))

/-- (let ((x 1) (y x)) y) -/
def letXYExpr : SValue :=
  .pair (.sym "let")
    (.pair (.pair (.pair (.sym "x") (.pair (.num 1) .nilV))
                  (.pair (.pair (.sym "y") (.pair (.sym "x") .nilV)) .nilV))
      (.pair (.sym "y") .nilV))

/-- A root frame binding x to 42, for the outer-binding variant of the let
scoping test. -/
def outerXSt : St := ⟨[⟨none, [("x", .num 42)]⟩], []⟩

/-- A global frame binding the macro mac = (define-macro (mac e) e) — a
macro returning its operand expression unevaluated — and w bound to 7. -/
def macSt : St := ⟨[⟨none, [("mac", .macP (.pair (.sym "e") .nilV) (.pair (.sym "e") .nilV)),
                            ("w", .num 7)]⟩], []⟩

/-- (mac w): the operand is the symbol w. -/
def macCallExpr : SValue := .pair (.sym "mac") (.pair (.sym "w") .nilV)

/-- A global frame binding m to the dynamic-scope procedure (mu (x) y), and
two calling frames, both children of the global frame: frame 1 binds the
free variable y to 10, frame 2 binds y to 20. -/
def muSt : St := ⟨[⟨none, [("m", .muP (.pair (.sym "x") .nilV) (.pair (.sym "y") .nilV))]⟩,
                   ⟨some 0, [("y", .num 10)]⟩, ⟨some 0, [("y", .num 20)]⟩], []⟩

/-- (m 0) -/
def muCallExpr : SValue := .pair (.sym "m") (.pair (.num 0) .nilV)

/-- The arity-2 closure (lambda (a b) a) as procedure 0. -/
def arityProc : LambdaProcedure :=
  ⟨.pair (.sym "a") (.pair (.sym "b") .nilV), .pair (.sym "a") .nilV, 0, false⟩

/-- A state holding the arity-2 closure. -/
def aritySt : St := ⟨[⟨none, []⟩], [arityProc]⟩

/-- A three-frame chain: the root frame 0 binds x to 1 and g to 5, frame 1
(child of 0) rebinds x to 2, frame 2 (child of 1) binds nothing. -/
def chainSt : St := ⟨[⟨none, [("x", .num 1), ("g", .num 5)]⟩,
                     ⟨some 0, [("x", .num 2)]⟩, ⟨some 1, []⟩], []⟩

/-- (and) -/
def andEmptyExpr : SValue := .pair (.sym "and") .nilV

/-- (and 1 false 2) -/
def andOneFalseTwoExpr : SValue :=
  .pair (.sym "and") (.pair (.num 1) (.pair (.boolV false) (.pair (.num 2) .nilV)))

/-- (and 1 false zz) with zz unbound: reaches false before zz. -/
def andShortExpr : SValue :=
  .pair (.sym "and") (.pair (.num 1) (.pair (.boolV false) (.pair (.sym "zz") .nilV)))

/-- (or false false 3) -/
def orThreeExpr : SValue :=
  .pair (.sym "or") (.pair (.boolV false) (.pair (.boolV false) (.pair (.num 3) .nilV)))

/-- (or 3 zz) with zz unbound: reaches 3 before zz. -/
def orShortExpr : SValue :=
  .pair (.sym "or") (.pair (.num 3) (.pair (.sym "zz") .nilV))

/-- The heap of (cond (false 1) (else 2 3)): cells 0-1 are the first
clause, cells 2-4 the else clause, cells 5-6 the clause-list spine, and
cell 7 is an alias — another list whose first element is the same else
clause cell 2. -/
def condHeap : Heap :=
  [⟨.boolH false, .ref 1⟩, ⟨.numH 1, .nilH⟩,
   ⟨.symH "else", .ref 3⟩, ⟨.numH 2, .ref 4⟩, ⟨.numH 3, .nilH⟩,
   ⟨.ref 0, .ref 6⟩, ⟨.ref 2, .nilH⟩,
   ⟨.ref 2, .nilH⟩]

/-- The same heap after the else overwrite: only cell 2's first slot
changed, in place. -/
def condHeapAfter : Heap := condHeap.set 2 ⟨.boolH true, .ref 3⟩

theorem scheme_eval_pair (fuel : Nat) (op rands : SValue) (env : Nat) (tailPos : Bool) (s : St) :
    scheme_eval (fuel+1) (.pair op rands) env tailPos s =
      match scheme_eval fuel op env false s with
      | .ok opv s' => evalWithOperator fuel opv rands env tailPos s'
      | r => r := by
  rw [scheme_eval]
  rcases scheme_eval fuel op env false s with _ | _ | _ <;> rfl

theorem evalWithOperator_mac (fuel : Nat) (params body rands : SValue) (env : Nat)
    (tailPos : Bool) (s' : St) :
    evalWithOperator fuel (.macP params body) rands env tailPos s' =
      match schemeToList rands with
      | some l => scheme_apply fuel (.macP params body) l env s'
      | none => .err .hostError s' := rfl

theorem andLoop_step (fuel : Nat) (hd tl : SValue) (env : Nat) (tailPos : Bool) (s : St) :
    andLoop (fuel+1) (.pair hd tl) env tailPos s =
      match scheme_eval fuel hd env (tailPos && isNilB tl) s with
      | .ok v s' =>
        if isTruthy v then
          match tl with
          | .nilV => .ok v s'
          | _ => andLoop fuel tl env tailPos s'
        else .ok v s'
      | r => r := by
  rw [andLoop]

theorem orLoop_step (fuel : Nat) (hd tl : SValue) (env : Nat) (tailPos : Bool) (s : St) :
    orLoop (fuel+1) (.pair hd tl) env tailPos s =
      match scheme_eval fuel hd env (tailPos && isNilB tl) s with
      | .ok v s' =>
        if isTruthy v then .ok v s'
        else
          match tl with
          | .nilV => .ok (.boolV false) s'
          | _ => orLoop fuel tl env tailPos s'
      | r => r := by
  rw [orLoop]

/-- C1: the spec requires the recursive_call marker to be false after every
terminating run of LambdaProcedure.apply that was entered with it false,
including error exits.  The code violates the error-exit half: applying the
parameterless closure (lambda () zz) — marker false on entry — terminates
by raising UnboundNameError for zz, and afterwards the marker is still
true, because LambdaProcedure.apply clears it only on the ordinary return
path (no try/finally around the body evaluation).  The final conjunct shows
the ordinary return path does restore it. -/
theorem c1_marker_left_true_on_error :
    (c1St.procs[0]?.map LambdaProcedure.recursive_call = some false)
    ∧ outcomeErr (lambdaApply 30 0 [] 0 c1St) = some (.unbound "zz")
    ∧ (((outcomeState (lambdaApply 30 0 [] 0 c1St)).bind
        fun t => t.procs[0]?.map LambdaProcedure.recursive_call) = some true)
    ∧ outcomeValue (lambdaApply 30 0 [] 0 c1OkSt) = some (.num 5)
    ∧ (((outcomeState (lambdaApply 30 0 [] 0 c1OkSt)).bind
        fun t => t.procs[0]?.map LambdaProcedure.recursive_call) = some false) :=
  ⟨rfl, rfl, rfl, rfl, rfl⟩

/-- C2 counterexample: a ThunkProcedure expression whose stored target is a
self-recursive closure, passed to scheme_eval outside tail position,
evaluates to a value that is itself a ThunkProcedure — the claim that the
result is never a thunk is false at this input. -/
theorem c2_counterexample_thunk_result :
    (outcomeValue (scheme_eval 30 (.thunkP (.lambdaP 0) []) 0 false c2St)).map isThunkV
      = some true := rfl

/-- C2 (amended): a ThunkProcedure expression reaching scheme_eval outside
tail position is resolved by exactly one application of its stored target
to its stored arguments (expr.apply, i.e. one scheme_apply step), not by
the complete_apply trampoline loop; the result of that single step is
returned as is, so it can itself be a ThunkProcedure. -/
theorem c2_thunk_resolved_one_step (fuel : Nat) (target : SValue) (targs : List SValue)
    (env : Nat) (s : St) :
    scheme_eval (fuel+1) (.thunkP target targs) env false s
      = scheme_apply fuel target targs env s := rfl

/-- C3 counterexample: (let ((x 1) (x 2)) x) — a binding list with a
duplicate binding name — does not fail at construction or at all: it
evaluates successfully to 2, so the claim that duplicate binding names fail
before any evaluation is false at this input. -/
theorem c3_counterexample_duplicate_let :
    outcomeValue (scheme_eval 30 letDupExpr 0 false emptySt) = some (.num 2) := rfl

/-- C3 (amended): LetForm construction validates only that the form has at
least two operands; each binding is validated during evaluation, one
binding at a time against a fresh symbol set, just before that binding's
expression is evaluated.  Hence duplicate binding names are never rejected
(the later binding overwrites the earlier, so (let ((x 1) (x 2)) x)
evaluates to 2), and a non-symbol binding name raises InvalidFormalsError
at evaluation time, after the expressions of earlier bindings have already
been evaluated and installed in the new frame. -/
theorem c3_let_validation_at_eval :
    validate_form (.pair (.pair (.pair (.sym "x") (.pair (.num 1) .nilV))
                  (.pair (.pair (.sym "x") (.pair (.num 2) .nilV)) .nilV))
      (.pair (.sym "x") .nilV)) 2 none = .ok ()
    ∧ outcomeValue (scheme_eval 30 letDupExpr 0 false emptySt) = some (.num 2)
    ∧ outcomeErr (scheme_eval 30 letNonsymExpr 0 false emptySt) = some .nonSymbol
    ∧ (((outcomeState (scheme_eval 30 letNonsymExpr 0 false emptySt)).bind
        fun t => t.frames[1]?.map (fun fr => assocFind fr.bindings "x"))
        = some (some (.num 1))) :=
  ⟨rfl, rfl, rfl, rfl⟩

/-- C4: every let binding expression is evaluated in the outer environment,
never in the new child frame.  Concretely, (let ((x 1) (y x)) y) raises
UnboundNameError for x when the outer environment has no x (the x bound by
the let itself is invisible to the second binding), and returns the outer
42 — not the let's own 1 — when the outer environment binds x to 42.  The
general conjunct is the binding-loop step: the binding's expression is
passed to scheme_eval with the outer environment env, while the evaluated
value is installed in the new frame fid. -/
theorem c4_let_bindings_outer_env :
    outcomeErr (scheme_eval 30 letXYExpr 0 false emptySt) = some (.unbound "x")
    ∧ outcomeValue (scheme_eval 30 letXYExpr 0 false outerXSt) = some (.num 42)
    ∧ (∀ fuel name ex rest fid env s,
        letBindLoop (fuel+1) (.pair (.pair (.sym name) (.pair ex .nilV)) rest) fid env s
          = match scheme_eval fuel ex env false s with
            | .ok v s' => letBindLoop fuel rest fid env (frameDefine s' fid name v)
            | r => r) := by
  refine ⟨rfl, rfl, fun fuel name ex rest fid env s => ?_⟩
  rw [letBindLoop]
  rcases scheme_eval fuel ex env false s with _ | _ | _ <;> rfl

/-- C5: when a call expression's operator evaluates to a MacroProcedure, the
raw (unevaluated) operand expressions are passed to the macro's apply —
identically for both values of the tail-position flag, and without the
ThunkProcedure wrapping of the tail-call path (the result is exactly the
macro application's result).  The second conjunct unfolds
MacroProcedure.apply itself: a transient closure over the caller's
environment is applied to those raw operands to produce the expansion, and
the expansion is then evaluated a second time in the caller's environment. -/
theorem c5_macro_unevaluated_operands (fuel : Nat) (op rands params body : SValue)
    (env : Nat) (s s' : St) (l : List SValue)
    (hop : scheme_eval fuel op env false s = .ok (.macP params body) s')
    (hl : schemeToList rands = some l) :
    (∀ tailPos, scheme_eval (fuel+1) (.pair op rands) env tailPos s
        = scheme_apply fuel (.macP params body) l env s')
    ∧ (∀ g args t, scheme_apply (g+1) (.macP params body) args env t
        = macApply g params body args env t)
    ∧ (∀ g args t, macApply (g+1) params body args env t
        = match lambdaApply g t.procs.length args env (addProc ⟨params, body, env, false⟩ t) with
          | .ok expansion s2 => scheme_eval g expansion env false s2
          | r => r) := by
  refine ⟨fun tailPos => ?_, fun g args t => rfl, fun g args t => ?_⟩
  · rw [scheme_eval_pair, hop]
    show evalWithOperator fuel (.macP params body) rands env tailPos s' = _
    rw [evalWithOperator_mac, hl]
  · rw [macApply]

/-- C5 witness: the macro scenario instantiated at (mac w) in a global
frame binding mac to the identity-expansion macro and w to 7: the operator
evaluates to the macro, the call reduces to the macro application on the
raw operand list [w], and the complete evaluation shows the two-stage
semantics (e is bound to the symbol w, the expansion w is then evaluated to
7) under both tail flags. -/
theorem c5_macro_unevaluated_operands_witness :
    scheme_eval 30 (.sym "mac") 0 false macSt
      = .ok (.macP (.pair (.sym "e") .nilV) (.pair (.sym "e") .nilV)) macSt
    ∧ schemeToList (.pair (.sym "w") .nilV) = some [.sym "w"]
    ∧ scheme_eval 31 macCallExpr 0 true macSt
        = scheme_apply 30 (.macP (.pair (.sym "e") .nilV) (.pair (.sym "e") .nilV)) [.sym "w"] 0 macSt
    ∧ outcomeValue (scheme_eval 31 macCallExpr 0 true macSt) = some (.num 7)
    ∧ outcomeValue (scheme_eval 31 macCallExpr 0 false macSt) = some (.num 7) :=
  ⟨rfl, rfl,
   (c5_macro_unevaluated_operands 30 (.sym "mac") (.pair (.sym "w") .nilV)
     (.pair (.sym "e") .nilV) (.pair (.sym "e") .nilV) 0 macSt macSt [.sym "w"] rfl rfl).1 true,
   rfl, rfl⟩

/-- C6: applying a MuProcedure parents the parameter frame at the caller's
current frame, so a free variable of its body resolves to the caller's
binding: the same (mu (x) y) called from frame 1 (y = 10) returns 10 and
from frame 2 (y = 20) returns 20.  The general conjunct is
MuProcedure.apply itself: it builds a transient LambdaProcedure whose
captured environment field is the caller's frame — not any definition-time
frame, of which a MuProcedure stores none — and applies it. -/
theorem c6_mu_dynamic_scope :
    outcomeValue (scheme_eval 30 muCallExpr 1 false muSt) = some (.num 10)
    ∧ outcomeValue (scheme_eval 30 muCallExpr 2 false muSt) = some (.num 20)
    ∧ (∀ fuel formals body args env s,
        muApply (fuel+1) formals body args env s
          = lambdaApply fuel s.procs.length args env (addProc ⟨formals, body, env, false⟩ s)) :=
  ⟨rfl, rfl, fun _ _ _ _ _ _ => rfl⟩

/-- C7: LambdaProcedure.apply raises the ArityError exactly when the
argument count differs from the formal count; with matching counts it
allocates a new frame parented at the captured defining frame (addFrame
p.env), binds the formals positionally to the arguments (bindFormals),
sets the marker, and evaluates the body there. -/
theorem c7_closure_arity (fuel : Nat) (pid : Nat) (p : LambdaProcedure) (args : List SValue)
    (env : Nat) (s : St) (n : Nat)
    (hp : s.procs[pid]? = some p) (hn : schemeLen p.formals = some n) :
    (args.length ≠ n → lambdaApply (fuel+1) pid args env s = .err (.arity n args.length) s)
    ∧ (args.length = n →
        lambdaApply (fuel+1) pid args env s =
          match schemeToList p.body with
          | none => .err .hostError
              (setFlag (bindFormals p.formals args s.frames.length (addFrame p.env s)) pid true)
          | some bl =>
            match evalSeq fuel bl s.frames.length true
                (setFlag (bindFormals p.formals args s.frames.length (addFrame p.env s)) pid true) with
            | .ok v s4 => .ok v (setFlag s4 pid false)
            | r => r) := by
  constructor
  · intro hne
    simp only [lambdaApply, hp, hn]
    simp [hne]
  · intro heq
    simp only [lambdaApply, hp, hn]
    simp [heq]

/-- C7 witness: the arity-2 closure (lambda (a b) a) called with one and
with three arguments raises ArityError in both cases, and called with two
arguments proceeds and returns the first argument. -/
theorem c7_closure_arity_witness :
    lambdaApply 31 0 [.num 1] 0 aritySt = .err (.arity 2 1) aritySt
    ∧ lambdaApply 31 0 [.num 1, .num 2, .num 3] 0 aritySt = .err (.arity 2 3) aritySt
    ∧ outcomeValue (lambdaApply 31 0 [.num 1, .num 2] 0 aritySt) = some (.num 1) :=
  ⟨(c7_closure_arity 30 0 arityProc [.num 1] 0 aritySt 2 rfl rfl).1 (by decide),
   (c7_closure_arity 30 0 arityProc [.num 1, .num 2, .num 3] 0 aritySt 2 rfl rfl).1 (by decide),
   rfl⟩

/-- If every frame of `pre` lacks the binding and frame F has it, the
innermost binding over the chain pre ++ F :: post is F's value. -/
theorem innermostBinding_append (s : St) (name : String) (pre : List Nat) (F : Nat)
    (post : List Nat) (v : SValue)
    (hF : frameBinding s F name = some v)
    (hpre : ∀ g ∈ pre, frameBinding s g name = none) :
    innermostBinding s (pre ++ F :: post) name = some v := by
  induction pre with
  | nil => simp [innermostBinding, hF]
  | cons g t ih =>
    have hg : frameBinding s g name = none := hpre g (by simp)
    simp only [List.cons_append, innermostBinding, hg]
    exact ih (fun x hx => hpre x (List.mem_cons_of_mem g hx))

/-- C8: Frame.lookup returns the value of the innermost frame of the parent
chain that binds the symbol — the chain searched from the frame itself
through its parents in order — and reports UnboundNameError when no frame
of the chain binds it.  Consequently (second conjunct) a name bound in a
frame F of the chain is found from any descendant whose chain reaches F
with no shadowing frame binding the name earlier in the chain. -/
theorem c8_lookup_innermost (fuel : Nat) (s : St) (fid : Nat) (name : String) (ch : List Nat)
    (hch : frameChain fuel s fid = some ch) :
    (Frame_lookup fuel s fid name =
      match innermostBinding s ch name with
      | some v => .found v
      | none => .unbound)
    ∧ (∀ pre F post v, ch = pre ++ F :: post → frameBinding s F name = some v →
        (∀ g ∈ pre, frameBinding s g name = none) →
        Frame_lookup fuel s fid name = .found v) := by
  have main : ∀ fuel fid ch, frameChain fuel s fid = some ch →
      Frame_lookup fuel s fid name =
        match innermostBinding s ch name with
        | some v => .found v
        | none => .unbound := by
    intro fuel
    induction fuel with
    | zero => intro fid ch hch; simp [frameChain] at hch
    | succ f ih =>
      intro fid ch hch
      rw [frameChain] at hch
      rw [Frame_lookup]
      cases hfr : s.frames[fid]? with
      | none => simp [hfr] at hch
      | some fr =>
        simp only [hfr] at hch ⊢
        cases hpar : fr.parent with
        | none =>
          simp only [hpar] at hch ⊢
          have hc : ch = [fid] := (Option.some.inj hch).symm
          subst hc
          cases hab : assocFind fr.bindings name <;>
            simp [hab, innermostBinding, frameBinding, hfr]
        | some p =>
          simp only [hpar] at hch ⊢
          cases hch' : frameChain f s p with
          | none => simp only [hch'] at hch; exact absurd hch (by simp)
          | some ch' =>
            rw [hch'] at hch
            have hc : ch = fid :: ch' := by
              simpa using hch.symm
            subst hc
            cases hab : assocFind fr.bindings name with
            | some v => simp [hab, innermostBinding, frameBinding, hfr]
            | none =>
              have hrec := ih p ch' hch'
              simp [hab, innermostBinding, frameBinding, hfr, hrec]
  refine ⟨main fuel fid ch hch, ?_⟩
  intro pre F post v hche hF hpre
  rw [main fuel fid ch hch, hche, innermostBinding_append s name pre F post v hF hpre]

/-- C8 witness: in the three-frame chain, looking x up from frame 2 finds
the innermost (shadowing) binding 2 in frame 1, not the root's 1; looking g
up from frame 2 walks past the non-binding frames 2 and 1 to the root's 5;
and a name bound nowhere reports UnboundNameError. -/
theorem c8_lookup_innermost_witness :
    frameChain 10 chainSt 2 = some [2, 1, 0]
    ∧ Frame_lookup 10 chainSt 2 "x" = .found (.num 2)
    ∧ Frame_lookup 10 chainSt 2 "g" = .found (.num 5)
    ∧ Frame_lookup 10 chainSt 2 "zz" = .unbound :=
  ⟨rfl,
   (c8_lookup_innermost 10 chainSt 2 "x" [2, 1, 0] rfl).1.trans rfl,
   (c8_lookup_innermost 10 chainSt 2 "g" [2, 1, 0] rfl).2 [2, 1] 0 [] (.num 5) rfl rfl
     (by intro g hg; fin_cases hg <;> rfl),
   (c8_lookup_innermost 10 chainSt 2 "zz" [2, 1, 0] rfl).1.trans rfl⟩

/-- C9: and/or semantics.  An empty and form is true (first conjunct: the
AndForm handler itself).  In the test loops: the first falsy and-test's
value is returned with the remaining tests untouched (the conclusion does
not depend on what follows, even an unbound symbol); a truthy non-last
and-test just continues left to right; the last and-test's value is
returned outright, evaluated with the propagated tail flag.  Dually for or:
first truthy value returned with the rest untouched, falsy non-last test
continues, and a falsy last test yields false.  The concrete conjuncts are
the spec's examples through the full evaluator: (and) is true,
(and 1 false 2) is false, (or false false 3) is 3, and the short-circuit
variants with an unbound symbol after the deciding test still succeed. -/
theorem c9_and_or_short_circuit :
    (∀ fuel env tailPos s, formEval (fuel+1) 3 .nilV env tailPos s = .ok (.boolV true) s)
    ∧ (∀ fuel e rest env tailPos s v s', isNilB rest = false →
        scheme_eval fuel e env false s = .ok v s' → isTruthy v = false →
        andLoop (fuel+1) (.pair e rest) env tailPos s = .ok v s')
    ∧ (∀ fuel e rest env tailPos s v s', isNilB rest = false →
        scheme_eval fuel e env false s = .ok v s' → isTruthy v = true →
        andLoop (fuel+1) (.pair e rest) env tailPos s = andLoop fuel rest env tailPos s')
    ∧ (∀ fuel e env tailPos s v s',
        scheme_eval fuel e env tailPos s = .ok v s' →
        andLoop (fuel+1) (.pair e .nilV) env tailPos s = .ok v s')
    ∧ (∀ fuel e rest env tailPos s v s', isNilB rest = false →
        scheme_eval fuel e env false s = .ok v s' → isTruthy v = true →
        orLoop (fuel+1) (.pair e rest) env tailPos s = .ok v s')
    ∧ (∀ fuel e rest env tailPos s v s', isNilB rest = false →
        scheme_eval fuel e env false s = .ok v s' → isTruthy v = false →
        orLoop (fuel+1) (.pair e rest) env tailPos s = orLoop fuel rest env tailPos s')
    ∧ (∀ fuel e env tailPos s v s',
        scheme_eval fuel e env tailPos s = .ok v s' → isTruthy v = false →
        orLoop (fuel+1) (.pair e .nilV) env tailPos s = .ok (.boolV false) s')
    ∧ outcomeValue (scheme_eval 30 andEmptyExpr 0 false emptySt) = some (.boolV true)
    ∧ outcomeValue (scheme_eval 30 andOneFalseTwoExpr 0 false emptySt) = some (.boolV false)
    ∧ outcomeValue (scheme_eval 30 andShortExpr 0 false emptySt) = some (.boolV false)
    ∧ outcomeValue (scheme_eval 30 orThreeExpr 0 false emptySt) = some (.num 3)
    ∧ outcomeValue (scheme_eval 30 orShortExpr 0 false emptySt) = some (.num 3) := by
  refine ⟨fun fuel env tailPos s => rfl, ?_, ?_, ?_, ?_, ?_, ?_, rfl, rfl, rfl, rfl, rfl⟩
  · intro fuel e rest env tailPos s v s' hr he hf
    rw [andLoop_step, hr, Bool.and_false, he]
    simp [hf]
  · intro fuel e rest env tailPos s v s' hr he ht
    rw [andLoop_step, hr, Bool.and_false, he]
    simp only [ht, if_true]
    cases rest <;> simp_all [isNilB]
  · intro fuel e env tailPos s v s' he
    have hflag : (tailPos && isNilB SValue.nilV) = tailPos := by cases tailPos <;> rfl
    rw [andLoop_step, hflag, he]
    cases ht : isTruthy v <;> simp [ht]
  · intro fuel e rest env tailPos s v s' hr he ht
    rw [orLoop_step, hr, Bool.and_false, he]
    simp [ht]
  · intro fuel e rest env tailPos s v s' hr he hf
    rw [orLoop_step, hr, Bool.and_false, he]
    simp only [hf, if_false]
    cases rest <;> simp_all [isNilB]
  · intro fuel e env tailPos s v s' he hf
    have hflag : (tailPos && isNilB SValue.nilV) = tailPos := by cases tailPos <;> rfl
    rw [orLoop_step, hflag, he]
    simp [hf]

/-- C9 witness: the short-circuit conjuncts instantiated — a false head
test ends an and form no matter what follows (here an unbound symbol), and
a truthy head test ends an or form likewise. -/
theorem c9_and_or_short_circuit_witness :
    andLoop 31 (.pair (.boolV false) (.pair (.sym "zz") .nilV)) 0 false emptySt
      = .ok (.boolV false) emptySt
    ∧ orLoop 31 (.pair (.num 3) (.pair (.sym "zz") .nilV)) 0 false emptySt
      = .ok (.num 3) emptySt :=
  ⟨(c9_and_or_short_circuit.2.1) 30 (.boolV false) (.pair (.sym "zz") .nilV) 0 false emptySt
      (.boolV false) emptySt rfl rfl rfl,
   (c9_and_or_short_circuit.2.2.2.2.1) 30 (.num 3) (.pair (.sym "zz") .nilV) 0 false emptySt
      (.num 3) emptySt rfl rfl rfl⟩

/-- C10: constructing the cond form node over the clause list whose last
clause starts with the symbol else overwrites that element with the boolean
true by storing into the clause's own pair cell: the returned clause list
is the same reference (ref 5), the heap keeps its size (no cell is copied
or allocated), the write happens at the existing address 2, and the alias
at cell 7 — which still points at address 2 — now reads true where it read
else before.  The final conjunct runs the constructor again on the mutated
tree, as the evaluator does before every evaluation of the cond expression
(the form node is rebuilt at each evaluation): the else test is already
gone, so the tree is unchanged. -/
theorem c10_cond_else_in_place_mutation :
    condInitH 10 condHeap (.ref 5) = .ok (condHeapAfter, .ref 5)
    ∧ readFirst condHeap (.ref 7) = some (.ref 2)
    ∧ readFirst condHeap (.ref 2) = some (.symH "else")
    ∧ readFirst condHeapAfter (.ref 7) = some (.ref 2)
    ∧ readFirst condHeapAfter (.ref 2) = some (.boolH true)
    ∧ condHeapAfter.length = condHeap.length
    ∧ condInitH 10 condHeapAfter (.ref 5) = .ok (condHeapAfter, .ref 5) :=
  ⟨rfl, rfl, rfl, rfl, rfl, rfl, rfl⟩
